import Mathlib

/-!
# hcloud-fip-controller: the reconciliation loop of `pkg/fipcontroller/client.go`

A shallow embedding of `Client.Run` and of its three resolvers
(`nodeAddress`, `publicAddress`, `floatingIP`), followed by the properties
of the reconciliation algorithm.

Conventions of the embedding

* Go `string` is `String`; a Go `error` value is its message, and the
  `error` interface (which may be `nil`) is `Option Error`.
* Go `net.IP` is `[]byte`, here a list of byte values; the `nil` slice is
  the empty list (every use in the controller goes through `len`).
* A pointer that may be `nil` is an `Option`.
* The two external collaborators (the Kubernetes API and the Hetzner Cloud
  API) are a `World`: what each of their operations answers.  Every call to
  them is recorded, in order, in a `Trace`.
-/

namespace Fipcontroller

/-! ## Package `net` of the Go standard library, as far as the controller uses it

`IP.Equal`, `ParseIP` and `IP.String` with the helpers of `net/ip.go` and
`net/parse.go` they rest on, as in the Go releases of the controller's time
(Go 1.13; `ParseIP` there accepts leading zeros in a dotted decimal octet).
Strings are read character by character; the characters that matter to the
parsers are ASCII. -/

namespace Net

/-- Go type `net.IP` (`[]byte`); `[]` is the nil address. -/
abbrev IP := List Nat

/-- Constant `net.IPv4len`. -/
def IPv4len : Nat := 4

/-- Constant `net.IPv6len`. -/
def IPv6len : Nat := 16

/-- Variable `net.v4InV6Prefix`. -/
def v4InV6Prefix : List Nat := [0, 0, 0, 0, 0, 0, 0, 0, 0, 0, 0xff, 0xff]

/-- Function `net.IPv4(a, b, c, d)`: the 16-byte form of an IPv4 address. -/
def IPv4 (a b c d : Nat) : IP := v4InV6Prefix ++ [a, b, c, d]

/-- Method `IP.Equal`: same length and same bytes, or one side is the 4-byte
form and the other the 16-byte form of the same IPv4 address. -/
def IP.Equal (ip x : IP) : Bool :=
  if ip.length = x.length then
    decide (ip = x)
  else if ip.length = IPv4len ∧ x.length = IPv6len then
    decide (x.take 12 = v4InV6Prefix) && decide (ip = x.drop 12)
  else if ip.length = IPv6len ∧ x.length = IPv4len then
    decide (ip.take 12 = v4InV6Prefix) && decide (ip.drop 12 = x)
  else
    false

/-- Method `IP.To4`: the 4-byte form, or nil when the address is not IPv4. -/
def IP.To4 (ip : IP) : IP :=
  if ip.length = IPv4len then ip
  else if ip.length = IPv6len ∧ (ip.take 10).all (· == 0) ∧
      ip.getD 10 0 = 0xff ∧ ip.getD 11 0 = 0xff then
    (ip.drop 12).take 4
  else []

/-- The address a byte string stands for, in one form: an IPv4 address given
in 4 bytes is brought to its 16-byte form, anything else is left as it is. -/
def IP.value (ip : IP) : IP :=
  if ip.length = IPv4len then v4InV6Prefix ++ ip else ip

/-- Constant `big` of `net/parse.go`. -/
def big : Nat := 0xFFFFFF

/-- Value of a decimal digit character. -/
def decVal (c : Char) : Option Nat :=
  if '0' ≤ c ∧ c ≤ '9' then some (c.toNat - '0'.toNat) else none

/-- Value of a hexadecimal digit character. -/
def hexVal (c : Char) : Option Nat :=
  if '0' ≤ c ∧ c ≤ '9' then some (c.toNat - '0'.toNat)
  else if 'a' ≤ c ∧ c ≤ 'f' then some (c.toNat - 'a'.toNat + 10)
  else if 'A' ≤ c ∧ c ≤ 'F' then some (c.toNat - 'A'.toNat + 10)
  else none

/-- Loop of `dtoi`: `n` is the value so far, `i` the number of characters
consumed.  Returns `(n, i, ok)`. -/
def dtoiLoop : List Char → Nat → Nat → Nat × Nat × Bool
  | [], n, i => if i = 0 then (0, 0, false) else (n, i, true)
  | c :: cs, n, i =>
    match decVal c with
    | some d =>
      let n1 := n * 10 + d
      if n1 ≥ big then (big, i, false) else dtoiLoop cs n1 (i + 1)
    | none => if i = 0 then (0, 0, false) else (n, i, true)

/-- Function `dtoi`: decimal to integer; `(value, characters consumed, ok)`. -/
def dtoi (s : List Char) : Nat × Nat × Bool := dtoiLoop s 0 0

/-- Loop of `xtoi`. -/
def xtoiLoop : List Char → Nat → Nat → Nat × Nat × Bool
  | [], n, i => if i = 0 then (0, i, false) else (n, i, true)
  | c :: cs, n, i =>
    match hexVal c with
    | some d =>
      let n1 := n * 16 + d
      if n1 ≥ big then (0, i, false) else xtoiLoop cs n1 (i + 1)
    | none => if i = 0 then (0, i, false) else (n, i, true)

/-- Function `xtoi`: hexadecimal to integer; `(value, characters consumed, ok)`. -/
def xtoi (s : List Char) : Nat × Nat × Bool := xtoiLoop s 0 0

/-- Loop of `parseIPv4`: `k` octets are still to be read, `first` tells
whether this is octet 0 (no leading dot), `p` holds the octets read. -/
def parseIPv4Loop : Nat → Bool → List Char → List Nat → Option (List Nat)
  | 0, _, s, p => if s.length ≠ 0 then none else some p
  | k + 1, first, s, p =>
    if s.length = 0 then none
    else
      let s1 : Option (List Char) :=
        if first then some s
        else match s with
          | '.' :: rest => some rest
          | _ => none
      match s1 with
      | none => none
      | some s2 =>
        match dtoi s2 with
        | (n, c, ok) =>
          if !ok || n > 0xFF then none
          else parseIPv4Loop k false (s2.drop c) (p ++ [n])

/-- Function `parseIPv4`: dotted decimal to the 16-byte form, nil on failure. -/
def parseIPv4 (s : List Char) : IP :=
  match parseIPv4Loop 4 true s [] with
  | some [a, b, c, d] => IPv4 a b c d
  | _ => []

/-- State of the main loop of `parseIPv6`: the bytes written so far (their
number is the index `i`), the position of the ellipsis and the rest of the
input. -/
structure V6State where
  ip : List Nat
  ellipsis : Option Nat
  s : List Char

/-- Main loop of `parseIPv6` (at most eight 16-bit groups); `none` is the
`return nil` of the source, `some st` the state at the `break`. -/
def parseIPv6Loop : Nat → V6State → Option V6State
  | 0, st => some st
  | fuel + 1, st =>
    if st.ip.length < IPv6len then
      match xtoi st.s with
      | (n, c, ok) =>
        if !ok || n > 0xFFFF then none
        else if c < st.s.length ∧ st.s.getD c ' ' = '.' then
          if st.ellipsis.isNone ∧ st.ip.length ≠ IPv6len - IPv4len then none
          else if st.ip.length + IPv4len > IPv6len then none
          else
            match parseIPv4 st.s with
            | [] => none
            | ip4 => some { st with ip := st.ip ++ ip4.drop 12, s := [] }
        else
          let ip1 := st.ip ++ [n / 256 % 256, n % 256]
          match st.s.drop c with
          | [] => some { st with ip := ip1, s := [] }
          | [_] => none
          | c0 :: c1 :: rest =>
            if c0 ≠ ':' then none
            else if c1 = ':' then
              if st.ellipsis.isSome then none
              else if rest.length = 0 then
                some { ip := ip1, ellipsis := some ip1.length, s := [] }
              else parseIPv6Loop fuel { ip := ip1, ellipsis := some ip1.length, s := rest }
            else parseIPv6Loop fuel { st with ip := ip1, s := c1 :: rest }
    else some st

/-- Function `parseIPv6`: textual IPv6 (without zone) to 16 bytes, nil on failure. -/
def parseIPv6 (s : List Char) : IP :=
  let st0 : V6State :=
    match s with
    | ':' :: ':' :: rest => { ip := [], ellipsis := some 0, s := rest }
    | _ => { ip := [], ellipsis := none, s := s }
  if st0.ellipsis.isSome ∧ st0.s.length = 0 then List.replicate IPv6len 0
  else
    match parseIPv6Loop 8 st0 with
    | none => []
    | some st =>
      if st.s.length ≠ 0 then []
      else if st.ip.length < IPv6len then
        match st.ellipsis with
        | none => []
        | some e =>
          st.ip.take e ++ List.replicate (IPv6len - st.ip.length) 0 ++ st.ip.drop e
      else if st.ellipsis.isSome then []
      else st.ip

/-- Scan of `ParseIP` for the first `.` or `:`, which selects the parser. -/
def parseIPScan (whole : List Char) : List Char → IP
  | [] => []
  | c :: cs =>
    if c = '.' then parseIPv4 whole
    else if c = ':' then parseIPv6 whole
    else parseIPScan whole cs

/-- Function `net.ParseIP`: the address a string denotes, nil (`[]`) when the
string is not a textual IPv4 or IPv6 address. -/
def ParseIP (s : String) : IP := parseIPScan s.data s.data

/-- Loop of `uitoa`: the decimal digits of `n`, most significant first. -/
def uitoaLoop : Nat → Nat → List Char → List Char
  | 0, _, acc => acc
  | fuel + 1, n, acc =>
    let acc1 := Char.ofNat ('0'.toNat + n % 10) :: acc
    if n / 10 = 0 then acc1 else uitoaLoop fuel (n / 10) acc1

/-- Function `uitoa`: an unsigned integer in decimal. -/
def uitoa (n : Nat) : List Char := uitoaLoop (n + 1) n []

/-- Constant `hexDigit` of `net/parse.go`, indexed. -/
def hexDigit (v : Nat) : Char := "0123456789abcdef".data.getD v '0'

/-- Function `hexString`: two lower-case hexadecimal digits per byte. -/
def hexString (b : List Nat) : List Char :=
  b.flatMap fun tn => [hexDigit (tn / 16 % 16), hexDigit (tn % 16)]

/-- Function `appendHex`: a 16-bit group in hexadecimal without leading zeros. -/
def appendHex (dst : List Char) (i : Nat) : List Char :=
  if i = 0 then dst ++ ['0']
  else dst ++ ([7, 6, 5, 4, 3, 2, 1, 0].filter fun j => i / 16 ^ j > 0).map
    fun j => hexDigit (i / 16 ^ j % 16)

/-- Inner loop of `IP.String`: the end of the run of zero groups starting at `j`. -/
def zeroRunEnd (p : IP) : Nat → Nat → Nat
  | 0, j => j
  | fuel + 1, j =>
    if j < IPv6len ∧ p.getD j 0 = 0 ∧ p.getD (j + 1) 0 = 0 then zeroRunEnd p fuel (j + 2)
    else j

/-- First loop of `IP.String`: the longest run of zero groups `(e0, e1)`,
`(-1, -1)` when there is none. -/
def longestZeros (p : IP) : Nat → Nat → Int × Int → Int × Int
  | 0, _, e => e
  | fuel + 1, i, (e0, e1) =>
    if i < IPv6len then
      let j := zeroRunEnd p 8 i
      if j > i ∧ (j : Int) - (i : Int) > e1 - e0 then longestZeros p fuel (j + 2) (i, j)
      else longestZeros p fuel (i + 2) (e0, e1)
    else (e0, e1)

/-- Second loop of `IP.String`: the groups in hexadecimal, with `::` in place
of the run `(e0, e1)`. -/
def printGroups (p : IP) (e0 e1 : Int) : Nat → Nat → List Char → List Char
  | 0, _, b => b
  | fuel + 1, i, b =>
    if i < IPv6len then
      if (i : Int) = e0 then
        let b1 := b ++ [':', ':']
        let i1 := e1.toNat
        if i1 ≥ IPv6len then b1
        else printGroups p e0 e1 fuel (i1 + 2)
          (appendHex b1 (p.getD i1 0 * 256 + p.getD (i1 + 1) 0))
      else
        let b1 := if i > 0 then b ++ [':'] else b
        printGroups p e0 e1 fuel (i + 2) (appendHex b1 (p.getD i 0 * 256 + p.getD (i + 1) 0))
    else b

/-- Method `IP.String`: `<nil>` for the nil address, dotted decimal for IPv4,
the compressed hexadecimal form for IPv6, `?` and the bytes in hexadecimal
for any other length. -/
def IP.String (ip : IP) : String :=
  if ip.length = 0 then "<nil>"
  else
    match IP.To4 ip with
    | [a, b, c, d] =>
      String.mk (uitoa a ++ ['.'] ++ uitoa b ++ ['.'] ++ uitoa c ++ ['.'] ++ uitoa d)
    | _ =>
      if ip.length ≠ IPv6len then String.mk ('?' :: hexString ip)
      else
        let e := longestZeros ip 8 0 (-1, -1)
        let e2 : Int × Int := if e.2 - e.1 ≤ 2 then (-1, -1) else e
        String.mk (printGroups ip e2.1 e2.2 8 0 [])

/-- The dotted decimal text of four octets. -/
def dotted (a b c d : Nat) : List Char :=
  uitoa a ++ '.' :: (uitoa b ++ '.' :: (uitoa c ++ '.' :: uitoa d))

end Net

/-! ## Package `fmt`: the two verbs the controller uses -/

/-- Expansion of a format string: each `%s` or `%v` is replaced by the next
argument (already rendered as text), every other character is copied. -/
def sprintfLoop : List Char → List String → List Char
  | [], _ => []
  | [c], _ => [c]
  | c :: d :: rest, args =>
    if c = '%' ∧ (d = 's' ∨ d = 'v') then
      match args with
      | [] => c :: d :: sprintfLoop rest []
      | a :: more => a.data ++ sprintfLoop rest more
    else c :: sprintfLoop (d :: rest) args

/-- Function `fmt.Sprintf` for string and error arguments. -/
def Sprintf (format : String) (args : List String) : String :=
  String.mk (sprintfLoop format.data args)

/-- Go `error` value: its message. -/
abbrev Error := String

/-- Function `fmt.Errorf`: a new error whose message is the expanded format. -/
def Errorf (format : String) (args : List String) : Error := Sprintf format args

/-! ## The records of the two inventories -/

/-- Type `corev1.NodeAddress`; `Typ` is the field `Type`, a `NodeAddressType`
string. -/
structure NodeAddress where
  Typ : String
  Address : String
  deriving DecidableEq, Repr

/-- Constant `corev1.NodeInternalIP`. -/
def NodeInternalIP : String := "InternalIP"

/-- Type `corev1.NodeStatus`, the field the controller reads. -/
structure NodeStatus where
  Addresses : List NodeAddress
  deriving DecidableEq, Repr

/-- Type `corev1.Node`, the fields the controller reads. -/
structure Node where
  Name : String
  Status : NodeStatus
  deriving DecidableEq, Repr

/-- Type `hcloud.ServerPublicNetIPv4`. -/
structure ServerPublicNetIPv4 where
  IP : Net.IP
  deriving DecidableEq, Repr

/-- Type `hcloud.ServerPublicNet`. -/
structure ServerPublicNet where
  IPv4 : ServerPublicNetIPv4
  deriving DecidableEq, Repr

/-- Type `hcloud.Server`, the fields the controller reads. -/
structure Server where
  ID : Int
  Name : String
  PublicNet : ServerPublicNet
  deriving DecidableEq, Repr

/-- Type `hcloud.FloatingIP`, the fields the controller reads.  `Server` is a
pointer: it is nil (`none`) while the floating IP is assigned to no server. -/
structure FloatingIP where
  ID : Int
  IP : Net.IP
  Server : Option Server
  deriving DecidableEq, Repr

/-- Type `Configuration` of the controller. -/
structure Configuration where
  Token : String
  Address : String
  deriving DecidableEq, Repr

/-- Type `context.Context`, as far as the loop could observe it: whether its
`Done` channel is closed. -/
structure Context where
  cancelled : Bool
  deriving DecidableEq, Repr

/-- Type `Client`.  The two API clients it holds are the `World` below. -/
structure Client where
  Configuration : Configuration
  deriving DecidableEq, Repr

/-- What the process environment and the two external APIs answer during one
cycle.  The lists hold the records that the pointers of the Go slices point
to; the API clients put no nil pointer into them.
* `Getenv` is `os.Getenv`;
* `NodesList` is `KubeClient.CoreV1().Nodes().List`;
* `ServerAll` is `HetznerClient.Server.All`;
* `FloatingIPAll` is `HetznerClient.FloatingIP.All`;
* `FloatingIPAssign` is the error result of `HetznerClient.FloatingIP.Assign`. -/
structure World where
  Getenv : String → String
  NodesList : Except Error (List Node)
  ServerAll : Context → Except Error (List Server)
  FloatingIPAll : Context → Except Error (List FloatingIP)
  FloatingIPAssign : Context → FloatingIP → Server → Option Error

/-- One observable action of the controller. -/
inductive Call where
  | NodesList
  | ServerAll (ctx : Context)
  | FloatingIPAll (ctx : Context)
  | FloatingIPAssign (ctx : Context) (floatingIP : FloatingIP) (server : Server)
  | Printf (text : String)
  | Sleep (seconds : Nat)
  deriving DecidableEq, Repr

/-- The actions of a run, oldest first. -/
abbrev Trace := List Call

/-- Whether an action is the mutating call `FloatingIP.Assign`. -/
def Call.isAssign : Call → Bool
  | .FloatingIPAssign _ _ _ => true
  | _ => false

/-! ## The resolvers -/

/-- First loop of `nodeAddress`: the addresses of the first node named
`nodeName`, nil when there is none. -/
def nodeAddress.findNode (nodeName : String) : List Node → List NodeAddress
  | [] => []
  | node :: rest =>
    if node.Name = nodeName then node.Status.Addresses
    else nodeAddress.findNode nodeName rest

/-- Second loop of `nodeAddress`: the parsed value of the first address of type
`InternalIP`, or the error after the loop. -/
def nodeAddress.scan : List NodeAddress → Net.IP × Option Error
  | [] => ([], some (Errorf "could not find address for current node" []))
  | address :: rest =>
    if address.Typ = NodeInternalIP then (Net.ParseIP address.Address, none)
    else nodeAddress.scan rest

/-- Method `Client.nodeAddress`: result `(address, err)` and the calls made. -/
def nodeAddress (w : World) : (Net.IP × Option Error) × Trace :=
  let nodeName := w.Getenv "NODE_NAME"
  match w.NodesList with
  | .error err => (([], some (Errorf "could not list nodes: %v" [err])), [Call.NodesList])
  | .ok nodes => (nodeAddress.scan (nodeAddress.findNode nodeName nodes), [Call.NodesList])

/-- Loop of `publicAddress`. -/
def publicAddress.scan (ip : Net.IP) : List Server → Option Server × Option Error
  | [] => (none, some (Errorf "no server with IP address %s found" [Net.IP.String ip]))
  | server :: rest =>
    if Net.IP.Equal server.PublicNet.IPv4.IP ip then (some server, none)
    else publicAddress.scan ip rest

/-- Method `Client.publicAddress`: result `(server, err)` and the calls made. -/
def publicAddress (ctx : Context) (w : World) (ip : Net.IP) :
    (Option Server × Option Error) × Trace :=
  match w.ServerAll ctx with
  | .error err => ((none, some (Errorf "could not fetch servers: %v" [err])), [Call.ServerAll ctx])
  | .ok servers => (publicAddress.scan ip servers, [Call.ServerAll ctx])

/-- Loop of `floatingIP`. -/
def floatingIP.scan (client : Client) : List FloatingIP → Option FloatingIP × Option Error
  | [] => (none, some (Errorf "IP address %s not allocated" [client.Configuration.Address]))
  | ip :: rest =>
    if Net.IP.Equal ip.IP (Net.ParseIP client.Configuration.Address) then (some ip, none)
    else floatingIP.scan client rest

/-- Method `Client.floatingIP`: result `(ip, err)` and the calls made. -/
def floatingIP (client : Client) (ctx : Context) (w : World) :
    (Option FloatingIP × Option Error) × Trace :=
  match w.FloatingIPAll ctx with
  | .error err =>
    ((none, some (Errorf "could not fetch floating IPs: %v" [err])), [Call.FloatingIPAll ctx])
  | .ok ips => (floatingIP.scan client ips, [Call.FloatingIPAll ctx])

/-! ## The loop -/

/-- How one pass through the body of the `for` loop of `Run` ends. -/
inductive Flow where
  | returned (err : Option Error)
  | panicked (msg : String)
  | sleeping
  deriving DecidableEq, Repr

/-- Message of the run-time panic raised by reading a field through a nil pointer. -/
def nilDereference : String :=
  "runtime error: invalid memory address or nil pointer dereference"

/-- Call `HetznerClient.FloatingIP.Assign` and what follows it in the loop body. -/
def assign (ctx : Context) (w : World) (floatingIP : FloatingIP) (serverAddress : Server) :
    Flow × Trace :=
  match w.FloatingIPAssign ctx floatingIP serverAddress with
  | some err =>
    (Flow.returned (some (Errorf "could not update floating IP: %v" [err])),
      [Call.FloatingIPAssign ctx floatingIP serverAddress])
  | none =>
    (Flow.sleeping, [Call.FloatingIPAssign ctx floatingIP serverAddress, Call.Sleep 30])

/-- Comparison `serverAddress.ID != floatingIP.Server.ID` of `Run` and the
branch it selects.  Both operands are read through pointers. -/
def compareAndAssign (ctx : Context) (w : World) (serverAddress : Option Server)
    (floatingIP : Option FloatingIP) : Flow × Trace :=
  match serverAddress with
  | none => (Flow.panicked nilDereference, [])
  | some server =>
    match floatingIP with
    | none => (Flow.panicked nilDereference, [])
    | some fip =>
      match fip.Server with
      | none => (Flow.panicked nilDereference, [])
      | some assignee =>
        if server.ID ≠ assignee.ID then
          let r := assign ctx w fip server
          (r.1, Call.Printf (Sprintf "Switching address %s to serverAddress %s."
            [Net.IP.String fip.IP, server.Name]) :: r.2)
        else
          (Flow.sleeping,
            [Call.Printf (Sprintf "Address %s already assigned to serverAddress %s. Nothing to do."
              [Net.IP.String fip.IP, server.Name]), Call.Sleep 30])

/-- Body of the `for` loop of `Run`, up to the entry into `time.Sleep`: how it
ends and the calls it made. -/
def cycle (client : Client) (ctx : Context) (w : World) : Flow × Trace :=
  match nodeAddress w with
  | ((_, some err), t1) =>
    (Flow.returned (some (Errorf "could not get kubernetes node address: %v" [err])), t1)
  | ((nodeAddress, none), t1) =>
    match publicAddress ctx w nodeAddress with
    | ((_, some err), t2) =>
      (Flow.returned (some (Errorf "could not get current serverAddress: %v" [err])), t1 ++ t2)
    | ((serverAddress, none), t2) =>
      match floatingIP client ctx w with
      | ((_, some err), t3) => (Flow.returned (some err), t1 ++ t2 ++ t3)
      | ((floatingIP, none), t3) =>
        let r := compareAndAssign ctx w serverAddress floatingIP
        (r.1, t1 ++ t2 ++ t3 ++ r.2)

/-- Where the loop of `Run` stands. -/
inductive Phase where
  | Reconciling
  | Idle
  | Returned (err : Option Error)
  | Panicked (msg : String)
  deriving DecidableEq, Repr

/-- State of a run: the phase, the execution context and the calls made so far. -/
structure LoopState where
  phase : Phase
  ctx : Context
  trace : Trace
  deriving DecidableEq, Repr

/-- What can happen next: the caller cancels the context, or the program runs
on (`w` is what the outside world answers meanwhile). -/
inductive Event where
  | cancel
  | tick (w : World)

/-- Phase after a pass through the loop body. -/
def Flow.phase : Flow → Phase
  | .returned err => Phase.Returned err
  | .panicked msg => Phase.Panicked msg
  | .sleeping => Phase.Idle

/-- One step of `Run`.  In `Reconciling` the loop body runs, handing the context
as it is at the start of the cycle to the cloud calls; in `Idle` the call
`time.Sleep(30 * time.Second)` returns and the `for` loop goes round (the
context is not consulted); after a return or a panic nothing runs any more. -/
def step (client : Client) (st : LoopState) : Event → LoopState
  | .cancel => { st with ctx := { cancelled := true } }
  | .tick w =>
    match st.phase with
    | .Reconciling =>
      let r := cycle client st.ctx w
      { st with phase := r.1.phase, trace := st.trace ++ r.2 }
    | .Idle => { st with phase := Phase.Reconciling }
    | .Returned _ => st
    | .Panicked _ => st

/-- State in which `Run` starts: the first cycle runs at once. -/
def start (ctx : Context) : LoopState :=
  { phase := Phase.Reconciling, ctx := ctx, trace := [] }

/-- Method `Client.Run`, driven by a schedule of events. -/
def Run (client : Client) (ctx : Context) (events : List Event) : LoopState :=
  events.foldl (step client) (start ctx)

/-! ## The scenarios of the specification -/

namespace Scenario

/-- Server `srv-7`, whose public address is 10.0.0.5. -/
def srv7 : Server :=
  { ID := 7, Name := "srv-7", PublicNet := { IPv4 := { IP := Net.ParseIP "10.0.0.5" } } }

/-- Server `srv-3`, another machine of the project. -/
def srv3 : Server :=
  { ID := 3, Name := "srv-3", PublicNet := { IPv4 := { IP := Net.ParseIP "10.0.0.4" } } }

/-- Reference to a server as the cloud API puts it into a floating IP: only
the identifier is filled in. -/
def ref (id : Int) : Server :=
  { ID := id, Name := "", PublicNet := { IPv4 := { IP := [] } } }

/-- Member `node-1` with internal address 10.0.0.5. -/
def node1 : Node :=
  { Name := "node-1",
    Status := { Addresses := [{ Typ := "Hostname", Address := "node-1" },
                              { Typ := "InternalIP", Address := "10.0.0.5" }] } }

/-- Another member of the cluster. -/
def node2 : Node :=
  { Name := "node-2",
    Status := { Addresses := [{ Typ := "InternalIP", Address := "10.0.0.4" }] } }

/-- Floating IP 203.0.113.9 with the given assignee. -/
def fip (assignee : Option Server) : FloatingIP :=
  { ID := 42, IP := Net.ParseIP "203.0.113.9", Server := assignee }

/-- The configuration of the scenarios: the controller manages 203.0.113.9. -/
def client : Client := { Configuration := { Token := "token", Address := "203.0.113.9" } }

/-- A context that is not cancelled. -/
def background : Context := { cancelled := false }

/-- Process environment with `NODE_NAME=node-1`. -/
def getenv (key : String) : String := if key = "NODE_NAME" then "node-1" else ""

/-- An outside world with the given inventories whose calls all succeed. -/
def world (nodes : List Node) (servers : List Server) (ips : List FloatingIP) : World :=
  { Getenv := getenv
    NodesList := .ok nodes
    ServerAll := fun _ => .ok servers
    FloatingIPAll := fun _ => .ok ips
    FloatingIPAssign := fun _ _ _ => none }

/-- Scenario A: the floating IP is assigned to `srv-3`. -/
def A : World := world [node2, node1] [srv3, srv7] [fip (some (ref 3))]

/-- Scenario B: the floating IP is already assigned to `srv-7`. -/
def B : World := world [node2, node1] [srv3, srv7] [fip (some (ref 7))]

/-- Scenario C: `node-1` is not in the cluster snapshot. -/
def C : World := world [node2] [srv3, srv7] [fip (some (ref 3))]

/-- Scenario D: 203.0.113.9 is not in the cloud inventory. -/
def D : World := world [node2, node1] [srv3, srv7] []

/-- The same outside world with cloud calls that observe the context: once it
is cancelled they fail, as the HTTP client of the cloud API does. -/
def observing (w : World) : World :=
  { w with
    ServerAll := fun ctx => if ctx.cancelled then .error "context canceled" else w.ServerAll ctx
    FloatingIPAll := fun ctx =>
      if ctx.cancelled then .error "context canceled" else w.FloatingIPAll ctx
    FloatingIPAssign := fun ctx ip server =>
      if ctx.cancelled then some "context canceled" else w.FloatingIPAssign ctx ip server }

/-- Scenario E: as A, but the floating IP is assigned to no server. -/
def E : World := world [node2, node1] [srv3, srv7] [fip none]

/-- Server `srv-9`, which has no public IPv4 address. -/
def srv9 : Server :=
  { ID := 9, Name := "srv-9", PublicNet := { IPv4 := { IP := [] } } }

/-- Member `node-1` whose internal address entry holds text that is no IP address. -/
def node1Malformed : Node :=
  { Name := "node-1",
    Status := { Addresses := [{ Typ := "InternalIP", Address := "not-an-ip" }] } }

/-- Scenario F: as B (the floating IP is on `srv-7`), but the internal address
of `node-1` does not parse and the project also has `srv-9`. -/
def F : World := world [node2, node1Malformed] [srv3, srv9, srv7] [fip (some (ref 7))]

/-- A configuration whose address is no IP address. -/
def clientMalformed : Client :=
  { Configuration := { Token := "token", Address := "not-an-ip" } }

/-- A floating IP whose address the cloud client could not parse. -/
def fipNoAddress : FloatingIP := { ID := 43, IP := [], Server := some (ref 3) }

/-- Scenario G: the inventory holds 203.0.113.9 and a floating IP without address. -/
def G : World := world [node2, node1] [srv3, srv7] [fip (some (ref 7)), fipNoAddress]

/-- Server `srv-8`, which shares the public address of `srv-7`. -/
def srv8 : Server :=
  { ID := 8, Name := "srv-8", PublicNet := { IPv4 := { IP := Net.ParseIP "10.0.0.5" } } }

/-- A project in which two servers share an address. -/
def Shared : World := world [node2, node1] [srv3, srv7, srv8] [fip (some (ref 3))]

/-- A project in which no server has the address of `node-1`. -/
def NoServer : World := world [node2, node1] [srv3] [fip (some (ref 3))]

/-- Member `node-3`, which has no internal address. -/
def node3 : Node :=
  { Name := "node-3",
    Status := { Addresses := [{ Typ := "Hostname", Address := "node-3" },
                              { Typ := "ExternalIP", Address := "198.51.100.3" }] } }

/-- A cluster whose role target `node-3` has no internal address. -/
def NoInternal : World :=
  { world [node2, node3, node1] [srv3, srv7] [fip (some (ref 3))] with
    Getenv := fun key => if key = "NODE_NAME" then "node-3" else "" }

end Scenario

/-! ## Address equality -/

namespace Net

theorem IP.value_length (ip : IP) :
    (IP.value ip).length = if ip.length = IPv4len then IPv6len else ip.length := by
  unfold IP.value
  split <;> simp_all [v4InV6Prefix, IPv4len, IPv6len]

/-- `IP.Equal` is equality of address values. -/
theorem IP.Equal_iff_value (a b : IP) : IP.Equal a b = true ↔ IP.value a = IP.value b := by
  have hp : v4InV6Prefix.length = 12 := rfl
  unfold IP.Equal
  by_cases hlen : a.length = b.length
  · rw [if_pos hlen]
    unfold IP.value
    by_cases h4 : a.length = IPv4len
    · have h4b : b.length = IPv4len := by omega
      rw [if_pos h4, if_pos h4b]
      simp
    · have h4b : ¬ b.length = IPv4len := by omega
      rw [if_neg h4, if_neg h4b]
      simp
  · rw [if_neg hlen]
    by_cases h1 : a.length = IPv4len ∧ b.length = IPv6len
    · rw [if_pos h1]
      have hb4 : ¬ b.length = IPv4len := by
        have := h1.2; simp [IPv4len, IPv6len] at *; omega
      unfold IP.value
      rw [if_pos h1.1, if_neg hb4]
      simp only [Bool.and_eq_true, decide_eq_true_eq]
      constructor
      · rintro ⟨ht, hd⟩
        rw [← ht, hd, List.take_append_drop]
      · intro h
        rw [← h]
        constructor
        · rw [List.take_left' hp]
        · rw [List.drop_left' hp]
    · rw [if_neg h1]
      by_cases h2 : a.length = IPv6len ∧ b.length = IPv4len
      · rw [if_pos h2]
        have ha4 : ¬ a.length = IPv4len := by
          have := h2.1; simp [IPv4len, IPv6len] at *; omega
        unfold IP.value
        rw [if_neg ha4, if_pos h2.2]
        simp only [Bool.and_eq_true, decide_eq_true_eq]
        constructor
        · rintro ⟨ht, hd⟩
          rw [← ht, ← hd, List.take_append_drop]
        · intro h
          rw [h]
          constructor
          · rw [List.take_left' hp]
          · rw [List.drop_left' hp]
      · rw [if_neg h2]
        constructor
        · intro h; cases h
        · intro h
          exfalso
          have hl := congrArg List.length h
          rw [IP.value_length, IP.value_length] at hl
          simp only [IPv4len, IPv6len] at *
          split at hl <;> split at hl <;> omega

/-- On byte strings of one length (in particular on the results of
`ParseIP`) `IP.Equal` is equality of the bytes. -/
theorem IP.Equal_iff_eq (a b : IP) (h : a.length = b.length) : IP.Equal a b = true ↔ a = b := by
  unfold IP.Equal
  rw [if_pos h]
  simp

/-- The nil address equals exactly the byte strings of length zero. -/
theorem IP.Equal_nil (a : IP) : IP.Equal a [] = true ↔ a = [] := by
  cases a with
  | nil => exact ⟨fun _ => rfl, fun _ => rfl⟩
  | cons x xs =>
    constructor
    · intro h
      simp [IP.Equal, IPv4len, IPv6len] at h
    · intro h
      cases h

/-! ### Reading back the text of an IPv4 address -/

/-- The scan of `dtoi` stops at a dot, whatever follows it. -/
theorem dtoiLoop_dot (pre r : List Char) (n i : Nat) :
    dtoiLoop (pre ++ '.' :: r) n i = dtoiLoop (pre ++ ['.']) n i := by
  induction pre generalizing n i with
  | nil =>
    have hd : decVal '.' = none := by decide
    simp [dtoiLoop, hd]
  | cons c cs ih =>
    simp only [List.cons_append, dtoiLoop]
    cases decVal c with
    | none => rfl
    | some dgt =>
      simp only
      split
      · rfl
      · exact ih _ _

set_option maxRecDepth 100000 in
/-- Reading back an octet that is followed by a dot. -/
theorem dtoi_octet_dot : ∀ a : Fin 256,
    dtoi (uitoa a.val ++ ['.']) = (a.val, (uitoa a.val).length, true) := by
  decide

set_option maxRecDepth 100000 in
/-- Reading back an octet at the end of the text. -/
theorem dtoi_octet_end : ∀ a : Fin 256,
    dtoi (uitoa a.val) = (a.val, (uitoa a.val).length, true) := by
  decide

set_option maxRecDepth 100000 in
/-- The decimal text of an octet is not empty and holds no dot and no colon. -/
theorem uitoa_octet_chars : ∀ a : Fin 256,
    (uitoa a.val).length ≠ 0 ∧ ∀ c ∈ uitoa a.val, c ≠ '.' ∧ c ≠ ':' := by
  decide


/-- Reading an octet followed by a dot, for any rest of the text. -/
theorem dtoi_octet (a : Nat) (ha : a < 256) (rest : List Char) :
    dtoi (uitoa a ++ '.' :: rest) = (a, (uitoa a).length, true) := by
  unfold dtoi
  rw [dtoiLoop_dot]
  exact dtoi_octet_dot ⟨a, ha⟩

/-- One round of the loop of `parseIPv4` on the first octet. -/
theorem parseIPv4Loop_first (k a : Nat) (ha : a < 256) (rest : List Char) (p : List Nat) :
    parseIPv4Loop (k + 1) true (uitoa a ++ '.' :: rest) p
      = parseIPv4Loop k false ('.' :: rest) (p ++ [a]) := by
  have hlen : (uitoa a ++ '.' :: rest).length ≠ 0 := by simp
  have h255 : ¬ a > 255 := by omega
  simp only [parseIPv4Loop, hlen, if_false, if_true, dtoi_octet a ha rest, Bool.not_true,
    Bool.false_or, decide_eq_true_eq, h255]
  rw [List.drop_left]

/-- One round of the loop of `parseIPv4` on a later octet that a dot follows. -/
theorem parseIPv4Loop_next (k a : Nat) (ha : a < 256) (rest : List Char) (p : List Nat) :
    parseIPv4Loop (k + 1) false ('.' :: (uitoa a ++ '.' :: rest)) p
      = parseIPv4Loop k false ('.' :: rest) (p ++ [a]) := by
  have hlen : ('.' :: (uitoa a ++ '.' :: rest)).length ≠ 0 := by simp
  have h255 : ¬ a > 255 := by omega
  have hdt := dtoi_octet a ha rest
  simp [parseIPv4Loop, hdt]
  omega

/-- The last round of the loop of `parseIPv4`. -/
theorem parseIPv4Loop_last (a : Nat) (ha : a < 256) (p : List Nat) :
    parseIPv4Loop 1 false ('.' :: uitoa a) p = some (p ++ [a]) := by
  have hlen : ('.' :: uitoa a).length ≠ 0 := by simp
  have h255 : ¬ a > 255 := by omega
  have hd : dtoi (uitoa a) = (a, (uitoa a).length, true) := dtoi_octet_end ⟨a, ha⟩
  simp [parseIPv4Loop, hd]
  omega

/-- Function `parseIPv4` reads the dotted decimal text of four octets back. -/
theorem parseIPv4_dotted (a b c d : Nat) (ha : a < 256) (hb : b < 256) (hc : c < 256)
    (hd : d < 256) : parseIPv4 (dotted a b c d) = IPv4 a b c d := by
  unfold parseIPv4 dotted
  rw [parseIPv4Loop_first 3 a ha, parseIPv4Loop_next 2 b hb, parseIPv4Loop_next 1 c hc,
    parseIPv4Loop_last d hd]
  rfl

/-- The scan of `ParseIP` selects `parseIPv4` at a dot that no dot or colon precedes. -/
theorem parseIPScan_dot (whole pre rest : List Char) (hpre : ∀ c ∈ pre, c ≠ '.' ∧ c ≠ ':') :
    parseIPScan whole (pre ++ '.' :: rest) = parseIPv4 whole := by
  induction pre with
  | nil => simp [parseIPScan]
  | cons c cs ih =>
    have hc := hpre c (List.mem_cons_self _ _)
    have hcs : ∀ x ∈ cs, x ≠ '.' ∧ x ≠ ':' := fun x hx => hpre x (List.mem_cons_of_mem _ hx)
    simp [parseIPScan, hc.1, hc.2, ih hcs]

/-- Method `IP.String` writes an IPv4 address in dotted decimal. -/
theorem String_IPv4 (a b c d : Nat) :
    IP.String (IPv4 a b c d) = String.mk (dotted a b c d) := by
  simp [IP.String, IP.To4, IPv4, v4InV6Prefix, IPv4len, IPv6len, dotted]

/-- Round trip: `ParseIP` reads the text that `IP.String` writes for an IPv4
address back to that address. -/
theorem ParseIP_String_IPv4 (a b c d : Nat) (ha : a < 256) (hb : b < 256) (hc : c < 256)
    (hd : d < 256) : ParseIP (IP.String (IPv4 a b c d)) = IPv4 a b c d := by
  rw [String_IPv4]
  unfold ParseIP
  show parseIPScan (dotted a b c d) (dotted a b c d) = _
  have hscan : parseIPScan (dotted a b c d) (dotted a b c d) = parseIPv4 (dotted a b c d) :=
    parseIPScan_dot (dotted a b c d) (uitoa a) _ (uitoa_octet_chars ⟨a, ha⟩).2
  rw [hscan]
  exact parseIPv4_dotted a b c d ha hb hc hd

end Net

/-! ## The resolvers, each on its own -/

/-- A server before which no server matches is what the scan returns. -/
theorem publicAddress_scan_first (ip : Net.IP) (pre : List Server) (server : Server)
    (post : List Server)
    (hpre : ∀ s ∈ pre, Net.IP.Equal s.PublicNet.IPv4.IP ip = false)
    (hs : Net.IP.Equal server.PublicNet.IPv4.IP ip = true) :
    publicAddress.scan ip (pre ++ server :: post) = (some server, none) := by
  induction pre with
  | nil => simp [publicAddress.scan, hs]
  | cons p ps ih =>
    have hp : Net.IP.Equal p.PublicNet.IPv4.IP ip = false := hpre p (List.mem_cons_self _ _)
    have hps : ∀ s ∈ ps, Net.IP.Equal s.PublicNet.IPv4.IP ip = false :=
      fun s hmem => hpre s (List.mem_cons_of_mem _ hmem)
    simp [publicAddress.scan, hp, ih hps]

/-- Without a matching server the scan ends in the error after the loop. -/
theorem publicAddress_scan_absent (ip : Net.IP) (servers : List Server)
    (h : ∀ s ∈ servers, Net.IP.Equal s.PublicNet.IPv4.IP ip = false) :
    publicAddress.scan ip servers
      = (none, some (Errorf "no server with IP address %s found" [Net.IP.String ip])) := by
  induction servers with
  | nil => rfl
  | cons p ps ih =>
    have hp : Net.IP.Equal p.PublicNet.IPv4.IP ip = false := h p (List.mem_cons_self _ _)
    have hps : ∀ s ∈ ps, Net.IP.Equal s.PublicNet.IPv4.IP ip = false :=
      fun s hmem => h s (List.mem_cons_of_mem _ hmem)
    simp [publicAddress.scan, hp, ih hps]

/-- A list with an element satisfying `p` splits at the first such element. -/
theorem exists_first {α : Type} (p : α → Bool) (xs : List α) (h : ∃ x ∈ xs, p x = true) :
    ∃ pre x post, xs = pre ++ x :: post ∧ (∀ y ∈ pre, p y = false) ∧ p x = true := by
  induction xs with
  | nil => obtain ⟨x, hx, _⟩ := h; cases hx
  | cons a as ih =>
    by_cases ha : p a = true
    · exact ⟨[], a, as, rfl, fun y hy => absurd hy (List.not_mem_nil y), ha⟩
    · have hrest : ∃ x ∈ as, p x = true := by
        obtain ⟨x, hx, hpx⟩ := h
        rcases List.mem_cons.mp hx with rfl | hmem
        · exact absurd hpx ha
        · exact ⟨x, hmem, hpx⟩
      obtain ⟨pre, x, post, hsplit, hpre, hx⟩ := ih hrest
      refine ⟨a :: pre, x, post, by rw [hsplit]; rfl, ?_, hx⟩
      intro y hy
      rcases List.mem_cons.mp hy with rfl | hmem
      · simpa using ha
      · exact hpre y hmem

/-- A floating IP before which none matches is what the scan returns. -/
theorem floatingIP_scan_first (client : Client) (pre : List FloatingIP) (ip : FloatingIP)
    (post : List FloatingIP)
    (hpre : ∀ f ∈ pre, Net.IP.Equal f.IP (Net.ParseIP client.Configuration.Address) = false)
    (hs : Net.IP.Equal ip.IP (Net.ParseIP client.Configuration.Address) = true) :
    floatingIP.scan client (pre ++ ip :: post) = (some ip, none) := by
  induction pre with
  | nil => simp [floatingIP.scan, hs]
  | cons p ps ih =>
    have hp := hpre p (List.mem_cons_self _ _)
    have hps : ∀ f ∈ ps, Net.IP.Equal f.IP (Net.ParseIP client.Configuration.Address) = false :=
      fun f hmem => hpre f (List.mem_cons_of_mem _ hmem)
    simp [floatingIP.scan, hp, ih hps]

/-- Without a matching floating IP the scan ends in the error after the loop. -/
theorem floatingIP_scan_absent (client : Client) (ips : List FloatingIP)
    (h : ∀ f ∈ ips, Net.IP.Equal f.IP (Net.ParseIP client.Configuration.Address) = false) :
    floatingIP.scan client ips
      = (none, some (Errorf "IP address %s not allocated" [client.Configuration.Address])) := by
  induction ips with
  | nil => rfl
  | cons p ps ih =>
    have hp := h p (List.mem_cons_self _ _)
    have hps : ∀ f ∈ ps, Net.IP.Equal f.IP (Net.ParseIP client.Configuration.Address) = false :=
      fun f hmem => h f (List.mem_cons_of_mem _ hmem)
    simp [floatingIP.scan, hp, ih hps]

/-- The text of the error of `floatingIP` for a missing address. -/
theorem notAllocated_text (addr : String) :
    Errorf "IP address %s not allocated" [addr] = "IP address " ++ addr ++ " not allocated" := by
  have h : Errorf "IP address %s not allocated" [addr]
      = String.mk ("IP address ".data ++ (addr.data ++ " not allocated".data)) := rfl
  rw [h]
  apply String.ext
  simp [String.data_append]

/-- The first loop of `nodeAddress` stops at the first node of the given name. -/
theorem nodeAddress_findNode_first (nodeName : String) (pre : List Node) (node : Node)
    (post : List Node) (hpre : ∀ n ∈ pre, n.Name ≠ nodeName) (hn : node.Name = nodeName) :
    nodeAddress.findNode nodeName (pre ++ node :: post) = node.Status.Addresses := by
  induction pre with
  | nil => simp [nodeAddress.findNode, hn]
  | cons p ps ih =>
    have hp : p.Name ≠ nodeName := hpre p (List.mem_cons_self _ _)
    have hps : ∀ n ∈ ps, n.Name ≠ nodeName := fun n hmem => hpre n (List.mem_cons_of_mem _ hmem)
    simp [nodeAddress.findNode, hp, ih hps]

/-- Without a node of the given name the first loop leaves the addresses nil. -/
theorem nodeAddress_findNode_absent (nodeName : String) (nodes : List Node)
    (h : ∀ n ∈ nodes, n.Name ≠ nodeName) : nodeAddress.findNode nodeName nodes = [] := by
  induction nodes with
  | nil => rfl
  | cons p ps ih =>
    have hp : p.Name ≠ nodeName := h p (List.mem_cons_self _ _)
    have hps : ∀ n ∈ ps, n.Name ≠ nodeName := fun n hmem => h n (List.mem_cons_of_mem _ hmem)
    simp [nodeAddress.findNode, hp, ih hps]

/-- With a single `InternalIP` entry the second loop returns its parsed value. -/
theorem nodeAddress_scan_single (addresses : List NodeAddress) (address : NodeAddress)
    (h : addresses.filter (fun a => decide (a.Typ = NodeInternalIP)) = [address]) :
    nodeAddress.scan addresses = (Net.ParseIP address.Address, none) := by
  induction addresses with
  | nil => simp at h
  | cons a as ih =>
    by_cases ha : a.Typ = NodeInternalIP
    · have hf : a :: as.filter (fun a => decide (a.Typ = NodeInternalIP)) = [address] := by
        simpa [List.filter, ha] using h
      have hEq : a = address := (List.cons.inj hf).1
      subst hEq
      simp [nodeAddress.scan, ha]
    · have hf : as.filter (fun a => decide (a.Typ = NodeInternalIP)) = [address] := by
        simpa [List.filter, ha] using h
      simp [nodeAddress.scan, ha, ih hf]

/-- Without an `InternalIP` entry the second loop ends in the error after it. -/
theorem nodeAddress_scan_absent (addresses : List NodeAddress)
    (h : ∀ a ∈ addresses, a.Typ ≠ NodeInternalIP) :
    nodeAddress.scan addresses = ([], some "could not find address for current node") := by
  induction addresses with
  | nil => rfl
  | cons a as ih =>
    have ha : a.Typ ≠ NodeInternalIP := h a (List.mem_cons_self _ _)
    have has : ∀ b ∈ as, b.Typ ≠ NodeInternalIP := fun b hmem => h b (List.mem_cons_of_mem _ hmem)
    simp [nodeAddress.scan, ha, ih has]

/-- C3. `publicAddress` on a fetched list of servers: when some server's public
IPv4 address is the same address value as the query, the result is the first
such server in listing order (whether or not later servers share the address)
and no error; when no server's address is the query address, the result is no
server and the error `no server with IP address <ip> found`. -/
theorem publicAddress_first_match (ctx : Context) (w : World) (ip : Net.IP)
    (servers : List Server) (hall : w.ServerAll ctx = .ok servers) :
    ((∃ s ∈ servers, Net.IP.value s.PublicNet.IPv4.IP = Net.IP.value ip) →
      ∃ pre server post, servers = pre ++ server :: post
        ∧ (∀ s ∈ pre, Net.IP.value s.PublicNet.IPv4.IP ≠ Net.IP.value ip)
        ∧ Net.IP.value server.PublicNet.IPv4.IP = Net.IP.value ip
        ∧ (publicAddress ctx w ip).1 = (some server, none))
    ∧ ((∀ s ∈ servers, Net.IP.value s.PublicNet.IPv4.IP ≠ Net.IP.value ip) →
      (publicAddress ctx w ip).1
        = (none, some (Errorf "no server with IP address %s found" [Net.IP.String ip]))) := by
  have hres : (publicAddress ctx w ip).1 = publicAddress.scan ip servers := by
    simp [publicAddress, hall]
  constructor
  · intro hex
    have hex2 : ∃ s ∈ servers, (fun s : Server => Net.IP.Equal s.PublicNet.IPv4.IP ip) s = true := by
      obtain ⟨s, hs, hv⟩ := hex
      exact ⟨s, hs, (Net.IP.Equal_iff_value _ _).mpr hv⟩
    obtain ⟨pre, server, post, hsplit, hpre, hs⟩ := exists_first _ servers hex2
    refine ⟨pre, server, post, hsplit, ?_, (Net.IP.Equal_iff_value _ _).mp hs, ?_⟩
    · intro s hmem hv
      have := hpre s hmem
      rw [(Net.IP.Equal_iff_value _ _).mpr hv] at this
      cases this
    · rw [hres, hsplit]
      exact publicAddress_scan_first ip pre server post hpre hs
  · intro hnone
    rw [hres]
    apply publicAddress_scan_absent
    intro s hmem
    cases hE : Net.IP.Equal s.PublicNet.IPv4.IP ip with
    | false => rfl
    | true => exact absurd ((Net.IP.Equal_iff_value _ _).mp hE) (hnone s hmem)

/-- What `nodeAddress` does on a fetched list of nodes, for the role target
`NODE_NAME`: when the first node of that name has exactly one address of type
`InternalIP`, the result is what `net.ParseIP` makes of the text of that
entry, with no error (for the dotted decimal text of an IPv4 address that is
the address itself); when no node has that name, or that node has no
`InternalIP` entry, the result is the error
`could not find address for current node`. -/
theorem nodeAddress_internal (w : World) (nodes : List Node)
    (hlist : w.NodesList = .ok nodes) :
    (∀ pre node post address, nodes = pre ++ node :: post →
        (∀ n ∈ pre, n.Name ≠ w.Getenv "NODE_NAME") → node.Name = w.Getenv "NODE_NAME" →
        node.Status.Addresses.filter (fun a => decide (a.Typ = NodeInternalIP)) = [address] →
        (nodeAddress w).1 = (Net.ParseIP address.Address, none)
        ∧ ∀ a b c d, a < 256 → b < 256 → c < 256 → d < 256 →
            address.Address = Net.IP.String (Net.IPv4 a b c d) →
            (nodeAddress w).1 = (Net.IPv4 a b c d, none))
    ∧ ((∀ n ∈ nodes, n.Name ≠ w.Getenv "NODE_NAME") →
        (nodeAddress w).1 = ([], some "could not find address for current node"))
    ∧ (∀ pre node post, nodes = pre ++ node :: post →
        (∀ n ∈ pre, n.Name ≠ w.Getenv "NODE_NAME") → node.Name = w.Getenv "NODE_NAME" →
        (∀ a ∈ node.Status.Addresses, a.Typ ≠ NodeInternalIP) →
        (nodeAddress w).1 = ([], some "could not find address for current node")) := by
  have hres : (nodeAddress w).1
      = nodeAddress.scan (nodeAddress.findNode (w.Getenv "NODE_NAME") nodes) := by
    simp [nodeAddress, hlist]
  refine ⟨?_, ?_, ?_⟩
  · intro pre node post address hsplit hpre hn hone
    have hmain : (nodeAddress w).1 = (Net.ParseIP address.Address, none) := by
      rw [hres, hsplit, nodeAddress_findNode_first _ pre node post hpre hn]
      exact nodeAddress_scan_single _ address hone
    refine ⟨hmain, ?_⟩
    intro a b c d ha hb hc hd htext
    rw [hmain, htext, Net.ParseIP_String_IPv4 a b c d ha hb hc hd]
  · intro hnone
    rw [hres, nodeAddress_findNode_absent _ nodes hnone]
    rfl
  · intro pre node post hsplit hpre hn hno
    rw [hres, hsplit, nodeAddress_findNode_first _ pre node post hpre hn]
    exact nodeAddress_scan_absent _ hno

/-- Witness of C3: with `srv-7` and `srv-8` sharing 10.0.0.5 the query 10.0.0.5
yields `srv-7`, the first of them; the query 10.0.0.99 yields the error. -/
theorem publicAddress_first_match_witness :
    (Scenario.Shared.ServerAll Scenario.background
        = .ok [Scenario.srv3, Scenario.srv7, Scenario.srv8])
    ∧ (∃ pre server post, [Scenario.srv3, Scenario.srv7, Scenario.srv8] = pre ++ server :: post
        ∧ (∀ s ∈ pre, Net.IP.value s.PublicNet.IPv4.IP ≠ Net.IP.value (Net.ParseIP "10.0.0.5"))
        ∧ Net.IP.value server.PublicNet.IPv4.IP = Net.IP.value (Net.ParseIP "10.0.0.5")
        ∧ (publicAddress Scenario.background Scenario.Shared (Net.ParseIP "10.0.0.5")).1
            = (some server, none))
    ∧ (publicAddress Scenario.background Scenario.Shared (Net.ParseIP "10.0.0.5")).1
        = (some Scenario.srv7, none)
    ∧ (publicAddress Scenario.background Scenario.Shared (Net.ParseIP "10.0.0.99")).1
        = (none, some "no server with IP address 10.0.0.99 found") :=
  ⟨rfl,
    (publicAddress_first_match Scenario.background Scenario.Shared (Net.ParseIP "10.0.0.5")
      [Scenario.srv3, Scenario.srv7, Scenario.srv8] rfl).1
      ⟨Scenario.srv8, by decide, by decide⟩,
    by decide,
    by decide⟩

/-- Examples: in scenario A `node-1` resolves to 10.0.0.5; in scenario C, where
`node-1` is absent, and for `node-3`, which has no internal address, the
result is the error. -/
theorem nodeAddress_internal_examples :
    (nodeAddress Scenario.A).1 = (Net.IPv4 10 0 0 5, none)
    ∧ (nodeAddress Scenario.C).1 = ([], some "could not find address for current node")
    ∧ (nodeAddress Scenario.NoInternal).1
        = ([], some "could not find address for current node") :=
  ⟨((nodeAddress_internal Scenario.A [Scenario.node2, Scenario.node1] rfl).1
      [Scenario.node2] Scenario.node1 [] { Typ := "InternalIP", Address := "10.0.0.5" }
      rfl (by decide) (by decide) (by decide)).2 10 0 0 5
      (by decide) (by decide) (by decide) (by decide) (by decide),
    (nodeAddress_internal Scenario.C [Scenario.node2] rfl).2.1 (by decide),
    (nodeAddress_internal Scenario.NoInternal
        [Scenario.node2, Scenario.node3, Scenario.node1] rfl).2.2
      [Scenario.node2] Scenario.node3 [Scenario.node1] rfl (by decide) (by decide) (by decide)⟩

/-! ## One cycle -/

/-- The only call `nodeAddress` makes is the node listing. -/
theorem nodeAddress_calls (w : World) : (nodeAddress w).2 = [Call.NodesList] := by
  unfold nodeAddress
  cases w.NodesList <;> rfl

/-- The only call `publicAddress` makes is the server listing. -/
theorem publicAddress_calls (ctx : Context) (w : World) (ip : Net.IP) :
    (publicAddress ctx w ip).2 = [Call.ServerAll ctx] := by
  unfold publicAddress
  cases w.ServerAll ctx <;> rfl

/-- The only call `floatingIP` makes is the floating IP listing. -/
theorem floatingIP_calls (client : Client) (ctx : Context) (w : World) :
    (floatingIP client ctx w).2 = [Call.FloatingIPAll ctx] := by
  unfold floatingIP
  cases w.FloatingIPAll ctx <;> rfl

/-- A cycle in which `nodeAddress` fails. -/
theorem cycle_nodeAddress_error (client : Client) (ctx : Context) (w : World) (a : Net.IP)
    (e : Error) (h1 : (nodeAddress w).1 = (a, some e)) :
    cycle client ctx w
      = (Flow.returned (some (Errorf "could not get kubernetes node address: %v" [e])),
          [Call.NodesList]) := by
  have h : nodeAddress w = ((a, some e), [Call.NodesList]) := Prod.ext h1 (nodeAddress_calls w)
  simp only [cycle, h]

/-- A cycle in which `publicAddress` fails. -/
theorem cycle_publicAddress_error (client : Client) (ctx : Context) (w : World)
    (addr : Net.IP) (s : Option Server) (e : Error)
    (h1 : (nodeAddress w).1 = (addr, none))
    (h2 : (publicAddress ctx w addr).1 = (s, some e)) :
    cycle client ctx w
      = (Flow.returned (some (Errorf "could not get current serverAddress: %v" [e])),
          [Call.NodesList, Call.ServerAll ctx]) := by
  have h : nodeAddress w = ((addr, none), [Call.NodesList]) := Prod.ext h1 (nodeAddress_calls w)
  have h' : publicAddress ctx w addr = ((s, some e), [Call.ServerAll ctx]) :=
    Prod.ext h2 (publicAddress_calls ctx w addr)
  simp only [cycle, h, h']
  rfl

/-- A cycle in which `floatingIP` fails. -/
theorem cycle_floatingIP_error (client : Client) (ctx : Context) (w : World)
    (addr : Net.IP) (s : Option Server) (f : Option FloatingIP) (e : Error)
    (h1 : (nodeAddress w).1 = (addr, none))
    (h2 : (publicAddress ctx w addr).1 = (s, none))
    (h3 : (floatingIP client ctx w).1 = (f, some e)) :
    cycle client ctx w
      = (Flow.returned (some e),
          [Call.NodesList, Call.ServerAll ctx, Call.FloatingIPAll ctx]) := by
  have h : nodeAddress w = ((addr, none), [Call.NodesList]) := Prod.ext h1 (nodeAddress_calls w)
  have h' : publicAddress ctx w addr = ((s, none), [Call.ServerAll ctx]) :=
    Prod.ext h2 (publicAddress_calls ctx w addr)
  have h'' : floatingIP client ctx w = ((f, some e), [Call.FloatingIPAll ctx]) :=
    Prod.ext h3 (floatingIP_calls client ctx w)
  simp only [cycle, h, h', h'']
  rfl

/-- A cycle in which the three resolutions succeed. -/
theorem cycle_resolved (client : Client) (ctx : Context) (w : World)
    (addr : Net.IP) (s : Option Server) (f : Option FloatingIP)
    (h1 : (nodeAddress w).1 = (addr, none))
    (h2 : (publicAddress ctx w addr).1 = (s, none))
    (h3 : (floatingIP client ctx w).1 = (f, none)) :
    cycle client ctx w
      = ((compareAndAssign ctx w s f).1,
          [Call.NodesList, Call.ServerAll ctx, Call.FloatingIPAll ctx]
            ++ (compareAndAssign ctx w s f).2) := by
  have h : nodeAddress w = ((addr, none), [Call.NodesList]) := Prod.ext h1 (nodeAddress_calls w)
  have h' : publicAddress ctx w addr = ((s, none), [Call.ServerAll ctx]) :=
    Prod.ext h2 (publicAddress_calls ctx w addr)
  have h'' : floatingIP client ctx w = ((f, none), [Call.FloatingIPAll ctx]) :=
    Prod.ext h3 (floatingIP_calls client ctx w)
  simp only [cycle, h, h', h'']
  rfl

/-- The text of an error made by `fmt.Errorf` from a fixed text and `%v`. -/
theorem Errorf_nodeAddress (e : Error) :
    Errorf "could not get kubernetes node address: %v" [e]
      = "could not get kubernetes node address: " ++ e := by
  have h : Errorf "could not get kubernetes node address: %v" [e]
      = String.mk ("could not get kubernetes node address: ".data ++ (e.data ++ [])) := rfl
  rw [h, List.append_nil]
  rfl

/-- The text of the error `Run` makes from an error of `publicAddress`. -/
theorem Errorf_serverAddress (e : Error) :
    Errorf "could not get current serverAddress: %v" [e]
      = "could not get current serverAddress: " ++ e := by
  have h : Errorf "could not get current serverAddress: %v" [e]
      = String.mk ("could not get current serverAddress: ".data ++ (e.data ++ [])) := rfl
  rw [h, List.append_nil]
  rfl

/-- The calls that `assign` makes: one `FloatingIP.Assign`, with the given arguments. -/
theorem assign_calls (ctx : Context) (w : World) (fip : FloatingIP) (server : Server) :
    (assign ctx w fip server).2.filter Call.isAssign
      = [Call.FloatingIPAssign ctx fip server] := by
  unfold assign
  cases w.FloatingIPAssign ctx fip server <;> rfl

/-! ## The run -/

/-- A schedule extended by one event is one more step. -/
theorem Run_snoc (client : Client) (ctx : Context) (events : List Event) (e : Event) :
    Run client ctx (events ++ [e]) = step client (Run client ctx events) e := by
  simp [Run, List.foldl_append]

/-- A schedule in two parts. -/
theorem Run_append (client : Client) (ctx : Context) (events more : List Event) :
    Run client ctx (events ++ more) = more.foldl (step client) (Run client ctx events) := by
  simp [Run, List.foldl_append]

/-- A step from `Reconciling` runs the loop body. -/
theorem step_reconciling (client : Client) (st : LoopState) (w : World)
    (h : st.phase = Phase.Reconciling) :
    step client st (Event.tick w)
      = { st with phase := (cycle client st.ctx w).1.phase,
                  trace := st.trace ++ (cycle client st.ctx w).2 } := by
  simp [step, h]

/-- After `Run` has returned nothing happens any more. -/
theorem foldl_step_returned (client : Client) (more : List Event) (st : LoopState)
    (err : Option Error) (h : st.phase = Phase.Returned err) :
    (more.foldl (step client) st).phase = Phase.Returned err
      ∧ (more.foldl (step client) st).trace = st.trace := by
  induction more generalizing st with
  | nil => exact ⟨h, rfl⟩
  | cons e es ih =>
    cases e with
    | cancel =>
      have := ih { st with ctx := { cancelled := true } } h
      simpa [List.foldl, step] using this
    | tick w =>
      have hs : step client st (Event.tick w) = st := by simp [step, h]
      simpa [List.foldl, hs] using ih st h

/-- A cycle that ends in `return err` ends the run for good: phase and trace
after any continuation of the schedule. -/
theorem Run_returned (client : Client) (ctx : Context) (events : List Event) (w : World)
    (err : Option Error) (calls : Trace)
    (hphase : (Run client ctx events).phase = Phase.Reconciling)
    (hc : cycle client (Run client ctx events).ctx w = (Flow.returned err, calls))
    (more : List Event) :
    (Run client ctx (events ++ Event.tick w :: more)).phase = Phase.Returned err
      ∧ (Run client ctx (events ++ Event.tick w :: more)).trace
          = (Run client ctx events).trace ++ calls := by
  rw [Run_append, List.foldl_cons, step_reconciling client _ w hphase, hc]
  exact foldl_step_returned client more _ err rfl

/-! ## Reconciliation -/

/-- A cycle that starts from `Reconciling` adds its calls to the trace of the run. -/
theorem Run_cycle (client : Client) (ctx : Context) (events : List Event) (w : World)
    (hphase : (Run client ctx events).phase = Phase.Reconciling) :
    (Run client ctx (events ++ [Event.tick w])).trace
        = (Run client ctx events).trace ++ (cycle client (Run client ctx events).ctx w).2
      ∧ (Run client ctx (events ++ [Event.tick w])).phase
        = (cycle client (Run client ctx events).ctx w).1.phase := by
  rw [Run_snoc, step_reconciling client _ w hphase]
  exact ⟨rfl, rfl⟩

/-- C1. Reconciliation is corrective.  Let a cycle of `Run` be about to start
(`Run` is in `Reconciling` after `events`), let the node address, the server
and the floating IP resolve in it, and let the floating IP be assigned to a
server whose ID differs from the resolved server's ID.  Then the calls that
this cycle adds to the trace of the run contain exactly one `FloatingIP.Assign`,
and its arguments are the resolved floating IP and the resolved server. -/
theorem cycle_corrective (client : Client) (ctx : Context) (events : List Event) (w : World)
    (addr : Net.IP) (server : Server) (fip : FloatingIP) (assignee : Server)
    (hphase : (Run client ctx events).phase = Phase.Reconciling)
    (h1 : (nodeAddress w).1 = (addr, none))
    (h2 : (publicAddress (Run client ctx events).ctx w addr).1 = (some server, none))
    (h3 : (floatingIP client (Run client ctx events).ctx w).1 = (some fip, none))
    (ha : fip.Server = some assignee) (hne : assignee.ID ≠ server.ID) :
    ∃ calls, (Run client ctx (events ++ [Event.tick w])).trace
          = (Run client ctx events).trace ++ calls
      ∧ calls.filter Call.isAssign
          = [Call.FloatingIPAssign (Run client ctx events).ctx fip server]
      ∧ calls.countP Call.isAssign = 1 := by
  have hne2 : ¬ server.ID = assignee.ID := fun h => hne h.symm
  refine ⟨(cycle client (Run client ctx events).ctx w).2,
    (Run_cycle client ctx events w hphase).1, ?_⟩
  have hf : (cycle client (Run client ctx events).ctx w).2.filter Call.isAssign
      = [Call.FloatingIPAssign (Run client ctx events).ctx fip server] := by
    rw [cycle_resolved client _ w addr (some server) (some fip) h1 h2 h3]
    simp only [compareAndAssign, ha, ne_eq, hne2, not_false_eq_true, if_true]
    simp only [List.filter_append, List.filter_cons, Call.isAssign]
    simpa using assign_calls (Run client ctx events).ctx w fip server
  refine ⟨hf, ?_⟩
  rw [List.countP_eq_length_filter, hf]
  rfl

/-- Witness of C1 (scenario A): `node-1` has internal address 10.0.0.5, `srv-7`
has public address 10.0.0.5, 203.0.113.9 is assigned to `srv-3`; the first
cycle issues the single call `Assign(203.0.113.9, srv-7)`. -/
theorem cycle_corrective_witness :
    ∃ calls, (Run Scenario.client Scenario.background ([] ++ [Event.tick Scenario.A])).trace
          = (Run Scenario.client Scenario.background []).trace ++ calls
      ∧ calls.filter Call.isAssign
          = [Call.FloatingIPAssign (Run Scenario.client Scenario.background []).ctx
              (Scenario.fip (some (Scenario.ref 3))) Scenario.srv7]
      ∧ calls.countP Call.isAssign = 1 :=
  cycle_corrective Scenario.client Scenario.background [] Scenario.A (Net.IPv4 10 0 0 5)
    Scenario.srv7 (Scenario.fip (some (Scenario.ref 3))) (Scenario.ref 3)
    (by decide) (by decide) (by decide) (by decide) rfl (by decide)

/-- C2. Reconciliation is idempotent.  Let a cycle of `Run` be about to start,
let the three resolutions succeed in it, and let the floating IP be assigned
to a server whose ID is the resolved server's ID.  Then the calls that this
cycle adds to the trace of the run contain no `FloatingIP.Assign`, and the
cycle ends without an error: `Run` has not returned, it sleeps. -/
theorem cycle_idempotent (client : Client) (ctx : Context) (events : List Event) (w : World)
    (addr : Net.IP) (server : Server) (fip : FloatingIP) (assignee : Server)
    (hphase : (Run client ctx events).phase = Phase.Reconciling)
    (h1 : (nodeAddress w).1 = (addr, none))
    (h2 : (publicAddress (Run client ctx events).ctx w addr).1 = (some server, none))
    (h3 : (floatingIP client (Run client ctx events).ctx w).1 = (some fip, none))
    (ha : fip.Server = some assignee) (heq : assignee.ID = server.ID) :
    (∃ calls, (Run client ctx (events ++ [Event.tick w])).trace
          = (Run client ctx events).trace ++ calls
      ∧ calls.filter Call.isAssign = [])
    ∧ (Run client ctx (events ++ [Event.tick w])).phase = Phase.Idle := by
  have hc := cycle_resolved client (Run client ctx events).ctx w addr (some server) (some fip)
    h1 h2 h3
  have hcmp : compareAndAssign (Run client ctx events).ctx w (some server) (some fip)
      = (Flow.sleeping,
          [Call.Printf (Sprintf "Address %s already assigned to serverAddress %s. Nothing to do."
            [Net.IP.String fip.IP, server.Name]), Call.Sleep 30]) := by
    simp [compareAndAssign, ha, heq]
  rw [hcmp] at hc
  obtain ⟨ht, hp⟩ := Run_cycle client ctx events w hphase
  rw [hc] at ht hp
  exact ⟨⟨_, ht, by simp [Call.isAssign]⟩, hp⟩

/-- Witness of C2 (scenario B): 203.0.113.9 is already assigned to `srv-7`. -/
theorem cycle_idempotent_witness :
    (∃ calls, (Run Scenario.client Scenario.background ([] ++ [Event.tick Scenario.B])).trace
          = (Run Scenario.client Scenario.background []).trace ++ calls
      ∧ calls.filter Call.isAssign = [])
    ∧ (Run Scenario.client Scenario.background ([] ++ [Event.tick Scenario.B])).phase
        = Phase.Idle :=
  cycle_idempotent Scenario.client Scenario.background [] Scenario.B (Net.IPv4 10 0 0 5)
    Scenario.srv7 (Scenario.fip (some (Scenario.ref 7))) (Scenario.ref 7)
    (by decide) (by decide) (by decide) (by decide) rfl (by decide)

/-! ## Failures -/

/-- C6. Every resolver failure is fatal and comes before any mutation.  Let a
cycle be about to start (`Run` is in `Reconciling` after `events`) and let a
resolver fail in it.  Then `Run` returns a non-nil error in that cycle, the
calls of the cycle are the queries up to the failing one and nothing else (no
later resolution step, no `FloatingIP.Assign`), and however the schedule goes
on, `Run` stays returned with the same error and makes no further call. -/
theorem resolver_failure_fatal (client : Client) (ctx : Context) (events : List Event)
    (w : World) (hphase : (Run client ctx events).phase = Phase.Reconciling) :
    (∀ a e, (nodeAddress w).1 = (a, some e) →
      ∃ err, ∀ more,
        (Run client ctx (events ++ Event.tick w :: more)).phase = Phase.Returned (some err)
        ∧ (Run client ctx (events ++ Event.tick w :: more)).trace
            = (Run client ctx events).trace ++ [Call.NodesList])
    ∧ (∀ addr s e, (nodeAddress w).1 = (addr, none) →
        (publicAddress (Run client ctx events).ctx w addr).1 = (s, some e) →
      ∃ err, ∀ more,
        (Run client ctx (events ++ Event.tick w :: more)).phase = Phase.Returned (some err)
        ∧ (Run client ctx (events ++ Event.tick w :: more)).trace
            = (Run client ctx events).trace
                ++ [Call.NodesList, Call.ServerAll (Run client ctx events).ctx])
    ∧ (∀ addr s f e, (nodeAddress w).1 = (addr, none) →
        (publicAddress (Run client ctx events).ctx w addr).1 = (s, none) →
        (floatingIP client (Run client ctx events).ctx w).1 = (f, some e) →
      ∃ err, ∀ more,
        (Run client ctx (events ++ Event.tick w :: more)).phase = Phase.Returned (some err)
        ∧ (Run client ctx (events ++ Event.tick w :: more)).trace
            = (Run client ctx events).trace
                ++ [Call.NodesList, Call.ServerAll (Run client ctx events).ctx,
                    Call.FloatingIPAll (Run client ctx events).ctx]) := by
  refine ⟨?_, ?_, ?_⟩
  · intro a e h1
    exact ⟨_, fun more => Run_returned client ctx events w _ _ hphase
      (cycle_nodeAddress_error client _ w a e h1) more⟩
  · intro addr s e h1 h2
    exact ⟨_, fun more => Run_returned client ctx events w _ _ hphase
      (cycle_publicAddress_error client _ w addr s e h1 h2) more⟩
  · intro addr s f e h1 h2 h3
    exact ⟨_, fun more => Run_returned client ctx events w _ _ hphase
      (cycle_floatingIP_error client _ w addr s f e h1 h2 h3) more⟩

/-- Witness of C6.  Scenario C (`node-1` absent), in the second cycle of a run:
the error, no cloud query, no `Assign`.  A project without a server for the
address of `node-1`: the error comes after the server listing.  Scenario D
(203.0.113.9 absent), in the first cycle: the error comes after the server
listing and the floating IP listing, no `Assign`.  In all of them later events
change nothing. -/
theorem resolver_failure_fatal_witness :
    (∃ err, ∀ more,
        (Run Scenario.client Scenario.background
            ([Event.tick Scenario.B, Event.tick Scenario.B]
              ++ Event.tick Scenario.C :: more)).phase = Phase.Returned (some err)
        ∧ (Run Scenario.client Scenario.background
            ([Event.tick Scenario.B, Event.tick Scenario.B]
              ++ Event.tick Scenario.C :: more)).trace
            = (Run Scenario.client Scenario.background
                [Event.tick Scenario.B, Event.tick Scenario.B]).trace ++ [Call.NodesList])
    ∧ (∃ err, ∀ more,
        (Run Scenario.client Scenario.background
            ([] ++ Event.tick Scenario.NoServer :: more)).phase = Phase.Returned (some err)
        ∧ (Run Scenario.client Scenario.background
            ([] ++ Event.tick Scenario.NoServer :: more)).trace
            = (Run Scenario.client Scenario.background []).trace
                ++ [Call.NodesList,
                    Call.ServerAll (Run Scenario.client Scenario.background []).ctx])
    ∧ (∃ err, ∀ more,
        (Run Scenario.client Scenario.background
            ([] ++ Event.tick Scenario.D :: more)).phase = Phase.Returned (some err)
        ∧ (Run Scenario.client Scenario.background ([] ++ Event.tick Scenario.D :: more)).trace
            = (Run Scenario.client Scenario.background []).trace
                ++ [Call.NodesList, Call.ServerAll (Run Scenario.client Scenario.background []).ctx,
                    Call.FloatingIPAll (Run Scenario.client Scenario.background []).ctx]) :=
  ⟨(resolver_failure_fatal Scenario.client Scenario.background
        [Event.tick Scenario.B, Event.tick Scenario.B] Scenario.C (by decide)).1
      [] "could not find address for current node" (by decide),
    (resolver_failure_fatal Scenario.client Scenario.background [] Scenario.NoServer
        (by decide)).2.1
      (Net.IPv4 10 0 0 5) none "no server with IP address 10.0.0.5 found"
      (by decide) (by decide),
    (resolver_failure_fatal Scenario.client Scenario.background [] Scenario.D (by decide)).2.2
      (Net.IPv4 10 0 0 5) (some Scenario.srv7) none "IP address 203.0.113.9 not allocated"
      (by decide) (by decide) (by decide)⟩

/-- Counterexample to C7 as stated (scenario C): `nodeAddress` fails with
`could not find address for current node`, and the error that `Run` returns is
another one, `could not get kubernetes node address: could not find address
for current node`. -/
theorem error_unchanged_counterexample :
    ¬ (∀ e, (nodeAddress Scenario.C).1.2 = some e →
        (Run Scenario.client Scenario.background [Event.tick Scenario.C]).phase
          = Phase.Returned (some e)) := by
  intro h
  have h2 := h "could not find address for current node" (by decide)
  revert h2
  decide

/-- C7, amended. An error of `floatingIP` is returned by `Run` unchanged.  An
error `e` of `nodeAddress` is returned as a new error whose message is
`could not get kubernetes node address: ` followed by the message of `e`, and
an error `e` of `publicAddress` as a new error whose message is
`could not get current serverAddress: ` followed by the message of `e`. -/
theorem error_propagation (client : Client) (ctx : Context) (events : List Event)
    (w : World) (hphase : (Run client ctx events).phase = Phase.Reconciling) :
    (∀ a e, (nodeAddress w).1 = (a, some e) →
      (Run client ctx (events ++ [Event.tick w])).phase
        = Phase.Returned (some ("could not get kubernetes node address: " ++ e)))
    ∧ (∀ addr s e, (nodeAddress w).1 = (addr, none) →
        (publicAddress (Run client ctx events).ctx w addr).1 = (s, some e) →
      (Run client ctx (events ++ [Event.tick w])).phase
        = Phase.Returned (some ("could not get current serverAddress: " ++ e)))
    ∧ (∀ addr s f e, (nodeAddress w).1 = (addr, none) →
        (publicAddress (Run client ctx events).ctx w addr).1 = (s, none) →
        (floatingIP client (Run client ctx events).ctx w).1 = (f, some e) →
      (Run client ctx (events ++ [Event.tick w])).phase = Phase.Returned (some e)) := by
  refine ⟨?_, ?_, ?_⟩
  · intro a e h1
    rw [← Errorf_nodeAddress e]
    exact (Run_returned client ctx events w _ _ hphase
      (cycle_nodeAddress_error client _ w a e h1) []).1
  · intro addr s e h1 h2
    rw [← Errorf_serverAddress e]
    exact (Run_returned client ctx events w _ _ hphase
      (cycle_publicAddress_error client _ w addr s e h1 h2) []).1
  · intro addr s f e h1 h2 h3
    exact (Run_returned client ctx events w _ _ hphase
      (cycle_floatingIP_error client _ w addr s f e h1 h2 h3) []).1

/-- Witness of C7 amended: scenario C for `nodeAddress`, a project without a
server for the address of `node-1` for `publicAddress`, scenario D for
`floatingIP`. -/
theorem error_propagation_witness :
    (Run Scenario.client Scenario.background ([] ++ [Event.tick Scenario.C])).phase
        = Phase.Returned (some ("could not get kubernetes node address: "
            ++ "could not find address for current node"))
    ∧ (Run Scenario.client Scenario.background ([] ++ [Event.tick Scenario.NoServer])).phase
        = Phase.Returned (some ("could not get current serverAddress: "
            ++ "no server with IP address 10.0.0.5 found"))
    ∧ (Run Scenario.client Scenario.background ([] ++ [Event.tick Scenario.D])).phase
        = Phase.Returned (some "IP address 203.0.113.9 not allocated") :=
  ⟨(error_propagation Scenario.client Scenario.background [] Scenario.C (by decide)).1
      [] "could not find address for current node" (by decide),
    (error_propagation Scenario.client Scenario.background [] Scenario.NoServer
        (by decide)).2.1
      (Net.IPv4 10 0 0 5) none "no server with IP address 10.0.0.5 found"
      (by decide) (by decide),
    (error_propagation Scenario.client Scenario.background [] Scenario.D (by decide)).2.2
      (Net.IPv4 10 0 0 5) (some Scenario.srv7) none "IP address 203.0.113.9 not allocated"
      (by decide) (by decide) (by decide)⟩

/-! ## Cancellation -/

/-- The comparison step never makes `Run` return nil. -/
theorem compareAndAssign_ne_nil (ctx : Context) (w : World) (s : Option Server)
    (f : Option FloatingIP) : (compareAndAssign ctx w s f).1 ≠ Flow.returned none := by
  unfold compareAndAssign
  cases s with
  | none => simp
  | some server =>
    cases f with
    | none => simp
    | some fip =>
      cases hS : fip.Server with
      | none => simp [hS]
      | some assignee =>
        by_cases hid : server.ID = assignee.ID
        · simp [hS, hid]
        · simp only [hS, ne_eq, hid, not_false_eq_true, if_true]
          unfold assign
          cases w.FloatingIPAssign ctx fip server <;> simp

/-- No `return` statement of the loop body returns nil. -/
theorem cycle_ne_nil (client : Client) (ctx : Context) (w : World) :
    (cycle client ctx w).1 ≠ Flow.returned none := by
  unfold cycle
  split
  · simp
  · split
    · simp
    · split
      · simp
      · exact compareAndAssign_ne_nil ctx w _ _

/-- Every cycle begins with the node listing. -/
theorem cycle_calls_head (client : Client) (ctx : Context) (w : World) :
    ∃ rest, (cycle client ctx w).2 = Call.NodesList :: rest := by
  have hn := nodeAddress_calls w
  unfold cycle
  split
  · next h => rw [h] at hn; exact ⟨[], hn⟩
  · next h =>
    rw [h] at hn
    simp only at hn
    subst hn
    split
    · exact ⟨_, rfl⟩
    · split
      · exact ⟨_, rfl⟩
      · exact ⟨_, rfl⟩

/-- No step takes `Run` to a return of nil. -/
theorem step_ne_nil (client : Client) (st : LoopState) (e : Event)
    (h : st.phase ≠ Phase.Returned none) : (step client st e).phase ≠ Phase.Returned none := by
  cases e with
  | cancel => simpa [step] using h
  | tick w =>
    cases hp : st.phase with
    | Reconciling =>
      rw [step_reconciling client st w hp]
      have hc := cycle_ne_nil client st.ctx w
      cases hf : (cycle client st.ctx w).1 with
      | returned err =>
        cases err with
        | none => exact absurd hf hc
        | some e => simp [Flow.phase]
      | panicked msg => simp [Flow.phase]
      | sleeping => simp [Flow.phase]
    | Idle => simp [step, hp]
    | Returned err =>
      have hs : step client st (Event.tick w) = st := by simp [step, hp]
      rw [hs]; exact h
    | Panicked msg =>
      have hs : step client st (Event.tick w) = st := by simp [step, hp]
      rw [hs]; exact h

/-- No schedule takes a state to a return of nil. -/
theorem foldl_step_ne_nil (client : Client) (events : List Event) (st : LoopState)
    (h : st.phase ≠ Phase.Returned none) :
    (events.foldl (step client) st).phase ≠ Phase.Returned none := by
  induction events generalizing st with
  | nil => exact h
  | cons e es ih => exact ih _ (step_ne_nil client st e h)

/-- Counterexample to C8 as stated.  In scenario B, with cloud calls that
observe the context, the context is cancelled while the loop sleeps after its
first cycle.  The loop goes on into a second cycle: it queries the node list
and the server list after the cancellation, and `Run` ends by returning an
error. -/
theorem cancellation_counterexample :
    (Run Scenario.client Scenario.background
        [Event.tick (Scenario.observing Scenario.B), Event.cancel]).phase = Phase.Idle
    ∧ (Run Scenario.client Scenario.background
        [Event.tick (Scenario.observing Scenario.B), Event.cancel]).ctx.cancelled = true
    ∧ (Run Scenario.client Scenario.background
        [Event.tick (Scenario.observing Scenario.B), Event.cancel,
          Event.tick (Scenario.observing Scenario.B)]).phase = Phase.Reconciling
    ∧ (Run Scenario.client Scenario.background
        [Event.tick (Scenario.observing Scenario.B), Event.cancel,
          Event.tick (Scenario.observing Scenario.B),
          Event.tick (Scenario.observing Scenario.B)]).trace
        = (Run Scenario.client Scenario.background
            [Event.tick (Scenario.observing Scenario.B), Event.cancel]).trace
          ++ [Call.NodesList, Call.ServerAll { cancelled := true }]
    ∧ (Run Scenario.client Scenario.background
        [Event.tick (Scenario.observing Scenario.B), Event.cancel,
          Event.tick (Scenario.observing Scenario.B),
          Event.tick (Scenario.observing Scenario.B)]).phase
        = Phase.Returned (some
            "could not get current serverAddress: could not fetch servers: context canceled") := by
  decide

/-- C8, amended. `Run` does not consult the execution context at the sleep
point.  When the context is cancelled while the loop sleeps, the loop stays in
the sleep, the sleep runs to its end, the loop then starts the next
reconciliation cycle, and that cycle begins by querying the node list.  `Run`
has no clean exit: on no schedule does it return nil. -/
theorem sleep_ignores_cancellation (client : Client) (ctx : Context) (events : List Event)
    (w1 w2 : World) (hidle : (Run client ctx events).phase = Phase.Idle) :
    (Run client ctx (events ++ [Event.cancel])).phase = Phase.Idle
    ∧ (Run client ctx (events ++ [Event.cancel])).ctx.cancelled = true
    ∧ (Run client ctx (events ++ [Event.cancel, Event.tick w1])).phase = Phase.Reconciling
    ∧ (∃ rest, (Run client ctx (events ++ [Event.cancel, Event.tick w1, Event.tick w2])).trace
        = (Run client ctx events).trace ++ Call.NodesList :: rest)
    ∧ (∀ schedule, (Run client ctx schedule).phase ≠ Phase.Returned none) := by
  refine ⟨?_, ?_, ?_, ?_, ?_⟩
  · rw [Run_append]
    simpa [List.foldl, step] using hidle
  · rw [Run_append]
    simp [List.foldl, step]
  · rw [Run_append]
    simp [List.foldl, step, hidle]
  · obtain ⟨rest, hrest⟩ := cycle_calls_head client { cancelled := true } w2
    refine ⟨rest, ?_⟩
    rw [Run_append]
    simp [List.foldl, step, hidle, hrest]
  · intro schedule
    exact foldl_step_ne_nil client schedule (start ctx) (by simp [start])

/-- Witness of C8 amended: the loop sleeps after a first cycle of scenario B. -/
theorem sleep_ignores_cancellation_witness :
    (Run Scenario.client Scenario.background
        ([Event.tick Scenario.B] ++ [Event.cancel])).phase = Phase.Idle
    ∧ (Run Scenario.client Scenario.background
        ([Event.tick Scenario.B] ++ [Event.cancel])).ctx.cancelled = true
    ∧ (Run Scenario.client Scenario.background
        ([Event.tick Scenario.B] ++ [Event.cancel, Event.tick Scenario.B])).phase
        = Phase.Reconciling
    ∧ (∃ rest, (Run Scenario.client Scenario.background
        ([Event.tick Scenario.B]
          ++ [Event.cancel, Event.tick Scenario.B, Event.tick Scenario.B])).trace
        = (Run Scenario.client Scenario.background [Event.tick Scenario.B]).trace
          ++ Call.NodesList :: rest)
    ∧ (∀ schedule,
        (Run Scenario.client Scenario.background schedule).phase ≠ Phase.Returned none) :=
  sleep_ignores_cancellation Scenario.client Scenario.background [Event.tick Scenario.B]
    Scenario.B Scenario.B (by decide)

/-! ## Nil addresses and nil pointers -/

/-- `floatingIP` on a fetched list: the first floating IP in listing order
whose address is the same address value as the parsed configured address, or
the error `IP address <addr> not allocated` when there is none. -/
theorem floatingIP_first_match (client : Client) (ctx : Context) (w : World)
    (ips : List FloatingIP) (hall : w.FloatingIPAll ctx = .ok ips) :
    ((∃ f ∈ ips, Net.IP.value f.IP = Net.IP.value (Net.ParseIP client.Configuration.Address)) →
      ∃ pre ip post, ips = pre ++ ip :: post
        ∧ (∀ f ∈ pre,
            Net.IP.value f.IP ≠ Net.IP.value (Net.ParseIP client.Configuration.Address))
        ∧ Net.IP.value ip.IP = Net.IP.value (Net.ParseIP client.Configuration.Address)
        ∧ (floatingIP client ctx w).1 = (some ip, none))
    ∧ ((∀ f ∈ ips,
          Net.IP.value f.IP ≠ Net.IP.value (Net.ParseIP client.Configuration.Address)) →
      (floatingIP client ctx w).1
        = (none, some ("IP address " ++ client.Configuration.Address ++ " not allocated"))) := by
  have hres : (floatingIP client ctx w).1 = floatingIP.scan client ips := by
    simp [floatingIP, hall]
  constructor
  · intro hex
    have hex2 : ∃ f ∈ ips, (fun f : FloatingIP =>
        Net.IP.Equal f.IP (Net.ParseIP client.Configuration.Address)) f = true := by
      obtain ⟨f, hf, hv⟩ := hex
      exact ⟨f, hf, (Net.IP.Equal_iff_value _ _).mpr hv⟩
    obtain ⟨pre, ip, post, hsplit, hpre, hs⟩ := exists_first _ ips hex2
    refine ⟨pre, ip, post, hsplit, ?_, (Net.IP.Equal_iff_value _ _).mp hs, ?_⟩
    · intro f hmem hv
      have := hpre f hmem
      rw [(Net.IP.Equal_iff_value _ _).mpr hv] at this
      cases this
    · rw [hres, hsplit]
      exact floatingIP_scan_first client pre ip post hpre hs
  · intro hnone
    rw [hres, ← notAllocated_text]
    apply floatingIP_scan_absent
    intro f hmem
    cases hE : Net.IP.Equal f.IP (Net.ParseIP client.Configuration.Address) with
    | false => rfl
    | true => exact absurd ((Net.IP.Equal_iff_value _ _).mp hE) (hnone f hmem)

/-- A configured address that does not parse matches exactly the floating IPs
whose own address is nil. -/
theorem floatingIP_unparsed_matches (client : Client) (f : FloatingIP)
    (hbad : Net.ParseIP client.Configuration.Address = []) :
    Net.IP.Equal f.IP (Net.ParseIP client.Configuration.Address) = true ↔ f.IP = [] := by
  rw [hbad]
  exact Net.IP.Equal_nil f.IP

/-- C4, the code at the failing input (scenario G): the configured address
`not-an-ip` is no IP address, the inventory lists 203.0.113.9 and a floating IP
whose address is nil; `floatingIP` returns the latter instead of the error
`IP address not-an-ip not allocated`. -/
theorem floatingIP_unparsed_address :
    Net.ParseIP Scenario.clientMalformed.Configuration.Address = []
    ∧ Scenario.G.FloatingIPAll Scenario.background
        = .ok [Scenario.fip (some (Scenario.ref 7)), Scenario.fipNoAddress]
    ∧ (floatingIP Scenario.clientMalformed Scenario.background Scenario.G).1
        = (some Scenario.fipNoAddress, none) := by
  refine ⟨by decide, rfl, by decide⟩

/-- Whenever the three resolutions succeed and the floating IP is assigned to no
server, the cycle panics after the three queries. -/
theorem cycle_unassigned (client : Client) (ctx : Context) (w : World) (addr : Net.IP)
    (server : Server) (fip : FloatingIP)
    (h1 : (nodeAddress w).1 = (addr, none))
    (h2 : (publicAddress ctx w addr).1 = (some server, none))
    (h3 : (floatingIP client ctx w).1 = (some fip, none))
    (ha : fip.Server = none) :
    cycle client ctx w
      = (Flow.panicked nilDereference,
          [Call.NodesList, Call.ServerAll ctx, Call.FloatingIPAll ctx]) := by
  rw [cycle_resolved client ctx w addr (some server) (some fip) h1 h2 h3]
  simp [compareAndAssign, ha]

/-- Whenever the first `InternalIP` entry holds text that does not parse, the
second loop of `nodeAddress` returns the nil address and no error. -/
theorem nodeAddress_scan_unparsed (pre : List NodeAddress) (address : NodeAddress)
    (post : List NodeAddress) (hpre : ∀ a ∈ pre, a.Typ ≠ NodeInternalIP)
    (ht : address.Typ = NodeInternalIP) (hbad : Net.ParseIP address.Address = []) :
    nodeAddress.scan (pre ++ address :: post) = ([], none) := by
  induction pre with
  | nil => simp [nodeAddress.scan, ht, hbad]
  | cons p ps ih =>
    have hp : p.Typ ≠ NodeInternalIP := hpre p (List.mem_cons_self _ _)
    have hps : ∀ a ∈ ps, a.Typ ≠ NodeInternalIP :=
      fun a hmem => hpre a (List.mem_cons_of_mem _ hmem)
    simp [nodeAddress.scan, hp, ih hps]

/-- C9, the code at the failing input (scenario E): the three resolutions
succeed and 203.0.113.9 is assigned to no server; the comparison reads
`floatingIP.Server.ID` through the nil pointer, the cycle panics and no
`FloatingIP.Assign` is issued. -/
theorem unassigned_floatingIP_panics :
    (nodeAddress Scenario.E).1 = (Net.IPv4 10 0 0 5, none)
    ∧ (publicAddress Scenario.background Scenario.E (Net.IPv4 10 0 0 5)).1
        = (some Scenario.srv7, none)
    ∧ (floatingIP Scenario.client Scenario.background Scenario.E).1
        = (some (Scenario.fip none), none)
    ∧ cycle Scenario.client Scenario.background Scenario.E
        = (Flow.panicked nilDereference,
            [Call.NodesList, Call.ServerAll Scenario.background,
              Call.FloatingIPAll Scenario.background])
    ∧ (Run Scenario.client Scenario.background [Event.tick Scenario.E]).phase
        = Phase.Panicked nilDereference := by
  decide

/-- C10, the code at the failing input (scenario F): the internal address entry
of `node-1` holds `not-an-ip`; `nodeAddress` returns the nil address and no
error, `publicAddress` matches it against `srv-9`, which has no public IPv4
address, and the cycle moves 203.0.113.9 from `srv-7` to `srv-9`. -/
theorem nodeAddress_unparsed_address :
    Net.ParseIP "not-an-ip" = []
    ∧ (nodeAddress Scenario.F).1 = ([], none)
    ∧ (publicAddress Scenario.background Scenario.F []).1 = (some Scenario.srv9, none)
    ∧ (cycle Scenario.client Scenario.background Scenario.F).2.filter Call.isAssign
        = [Call.FloatingIPAssign Scenario.background
            (Scenario.fip (some (Scenario.ref 7))) Scenario.srv9] := by
  decide

/-- C5, the code at the failing input (scenario F): `NODE_NAME` is `node-1`,
the node of that name is in the list and has exactly one address of type
`InternalIP`, whose text is `not-an-ip`.  `nodeAddress` returns neither that
address nor the error `could not find address for current node`: its result
is the nil address, which `IP.String` writes as `<nil>`, together with a nil
error. -/
theorem nodeAddress_single_entry_nil :
    Scenario.F.NodesList = .ok [Scenario.node2, Scenario.node1Malformed]
    ∧ Scenario.F.Getenv "NODE_NAME" = "node-1"
    ∧ Scenario.node2.Name ≠ "node-1"
    ∧ Scenario.node1Malformed.Name = "node-1"
    ∧ Scenario.node1Malformed.Status.Addresses.filter
          (fun a => decide (a.Typ = NodeInternalIP))
        = [{ Typ := "InternalIP", Address := "not-an-ip" }]
    ∧ (nodeAddress Scenario.F).1.2 = none
    ∧ (nodeAddress Scenario.F).1.1 = []
    ∧ Net.IP.String (nodeAddress Scenario.F).1.1 = "<nil>"
    ∧ (nodeAddress Scenario.F).1 ≠ ([], some "could not find address for current node") := by
  refine ⟨rfl, by decide, by decide, by decide, by decide, by decide, by decide, by decide,
    by decide⟩

end Fipcontroller
